import Mathlib

/-!
# Verification of the vex-rt concurrency core

A shallow embedding, in Lean 4, of the parts of the `vex-rt` repository that
the specification's claims are about: the sleep-deadline algebra
(`GenericSleep` in `src/rtos/mod.rs`), the `select_either` combinator and the
`select!` loop (`src/rtos/mod.rs`, `src/macros/select.rs`), the mutex wrapper
(`src/rtos/mutex.rs`), the FreeRTOS queue wrapper (`src/rtos/queue.rs`), the
rendez-vous channel protocol (`src/rtos/channel.rs`) and the lifecycle
context-replacement helper (`src/robot.rs`).

Machine integers: `Instant` wraps a `u32` millisecond count in the source; it
is embedded as `Nat`.  The operations the claims exercise (`min`, order
comparison, `checked_sub`, which returns `None` instead of wrapping) never
overflow, so no modular reduction is needed for them; where a Rust `as u32`
truncation does occur (queue timeouts) the embedding applies `% 2^32`
explicitly.

Kernel calls (`task_notify_take`, `task_delay`, `mutex_recursive_take`,
`queue_append`, ...) are external to the repository; each embedded operation
takes the kernel's observable behaviour as an explicit oracle argument and
returns, alongside its result, a description of the kernel action(s) it
performed, so that claims about which arguments reach the kernel are theorems
about these functions.
-/

namespace VexRt

/-- `Instant` (src/rtos/mod.rs line 26): a millisecond count on the monotonic
clock, `u32` in the source, embedded as `Nat`. -/
abbrev Instant := Nat

/-- `TIMEOUT_MAX` (src/rtos/mod.rs line 19): `0xffffffff`. -/
def TIMEOUT_MAX : Nat := 0xffffffff

/-- `GenericSleep` (src/rtos/mod.rs lines 326-332): a future time to sleep
until.  `notifyTake t?` wakes on a notification or at `t` if given, whichever
first; `timestamp t` wakes exactly at `t`. -/
inductive GenericSleep
  | notifyTake (deadline : Option Instant)
  | timestamp (deadline : Instant)
deriving DecidableEq, Repr

namespace GenericSleep

/-- `GenericSleep::timeout` (src/rtos/mod.rs lines 358-363). -/
def timeout : GenericSleep → Option Instant
  | notifyTake v => v
  | timestamp v => some v

/-- The `Option` minimum computed by the non-`Timestamp` arm of
`GenericSleep::combine` (src/rtos/mod.rs lines 372-375):
`a.map_or(b, |a| Some(b.map_or(a, |b| min(a, b))))`. -/
def optMin : Option Instant → Option Instant → Option Instant
  | none, b => b
  | some a, b => some (match b with
      | none => a
      | some b => min a b)

/-- `GenericSleep::combine` (src/rtos/mod.rs lines 367-377): two `Timestamp`s
combine to the earlier one; any other pair combines to a `NotifyTake` whose
deadline is the `map_or` expression embedded as `optMin`. -/
def combine : GenericSleep → GenericSleep → GenericSleep
  | timestamp a, timestamp b => timestamp (min a b)
  | a, b => notifyTake (optMin a.timeout b.timeout)

/-- The deadline minimum as the spec words it: the minimum of the two
deadlines, an absent deadline counting as infinite. -/
def minDeadlineSpec : Option Instant → Option Instant → Option Instant
  | none, none => none
  | some a, none => some a
  | none, some b => some b
  | some a, some b => some (min a b)

/-- `combine` as the spec words it (spec §3, `GenericSleep` invariant):
combining two `Timestamp`s yields the earlier one; combining any sleep
containing a notify-component yields a `NotifyTake` whose deadline is the
minimum of the two deadlines (absent deadline = infinite). -/
def combineSpec : GenericSleep → GenericSleep → GenericSleep
  | timestamp a, timestamp b => timestamp (min a b)
  | a, b => notifyTake (minDeadlineSpec a.timeout b.timeout)

theorem optMin_eq_minDeadlineSpec (a b : Option Instant) :
    optMin a b = minDeadlineSpec a b := by
  cases a <;> cases b <;> rfl

theorem timeout_combine (a b : GenericSleep) :
    (a.combine b).timeout = optMin a.timeout b.timeout := by
  cases a <;> cases b <;> rfl

theorem optMin_comm (a b : Option Instant) : optMin a b = optMin b a := by
  cases a <;> cases b <;> simp [optMin, Nat.min_comm]

theorem optMin_assoc (a b c : Option Instant) :
    optMin (optMin a b) c = optMin a (optMin b c) := by
  cases a <;> cases b <;> cases c <;> simp [optMin, Nat.min_assoc]

/-- Discriminant of the `Timestamp` variant. -/
def isTs : GenericSleep → Bool
  | timestamp _ => true
  | notifyTake _ => false

theorem repr_inj (x y : GenericSleep) (h1 : isTs x = isTs y)
    (h2 : x.timeout = y.timeout) : x = y := by
  cases x <;> cases y <;> simp_all [isTs, timeout]

theorem isTs_combine (a b : GenericSleep) :
    isTs (a.combine b) = (isTs a && isTs b) := by
  cases a <;> cases b <;> rfl

end GenericSleep

open GenericSleep in
/-- **C3.** For every pair of `GenericSleep` values `a` and `b`,
`combine a b` yields `Timestamp` of the earlier instant when both are
`Timestamp` variants, and otherwise yields `NotifyTake` whose deadline is the
minimum of the two deadlines with an absent deadline counting as infinite;
the result's deadline is absent exactly when both inputs are
`NotifyTake none`. -/
theorem combine_follows_spec (a b : GenericSleep) :
    a.combine b = combineSpec a b ∧
    ((a.combine b).timeout = none ↔
      a = notifyTake none ∧ b = notifyTake none) := by
  constructor
  · cases a <;> cases b <;>
      simp [combine, combineSpec, timeout, optMin_eq_minDeadlineSpec]
  · rw [timeout_combine]
    constructor
    · intro h
      cases a <;> cases b <;> rename_i x y <;>
        cases x <;> cases y <;> simp_all [timeout, optMin]
    · rintro ⟨rfl, rfl⟩
      rfl

open GenericSleep in
/-- **C4.** `combine` is commutative and associative, and when both inputs
carry a deadline the combined result's deadline is ≤ each input's deadline. -/
theorem combine_comm_assoc_mono (a b c : GenericSleep) :
    a.combine b = b.combine a ∧
    (a.combine b).combine c = a.combine (b.combine c) ∧
    (∀ da db, a.timeout = some da → b.timeout = some db →
      ∃ d, (a.combine b).timeout = some d ∧ d ≤ da ∧ d ≤ db) := by
  refine ⟨?_, ?_, ?_⟩
  · apply repr_inj
    · rw [isTs_combine, isTs_combine, Bool.and_comm]
    · rw [timeout_combine, timeout_combine, optMin_comm]
  · apply repr_inj
    · rw [isTs_combine, isTs_combine, isTs_combine, isTs_combine,
        Bool.and_assoc]
    · rw [timeout_combine, timeout_combine, timeout_combine, timeout_combine,
        optMin_assoc]
  · intro da db ha hb
    refine ⟨min da db, ?_, Nat.min_le_left _ _, Nat.min_le_right _ _⟩
    rw [timeout_combine, ha, hb]; rfl

/-- `Instant::checked_sub_instant` (src/rtos/mod.rs lines 90-92): `a - b` as a
millisecond duration, `none` when the result would be negative.  (The
`Duration::from_millis` / `as_millis` round-trip in the source is the
identity on the millisecond count.) -/
def Instant.checkedSubInstant (a b : Instant) : Option Nat :=
  if b ≤ a then some (a - b) else none

/-- The single kernel call performed by `GenericSleep::sleep`. -/
inductive SleepAction
  | notifyTakeCall (timeout : Nat)
  | delayCall (dur : Nat)
  | noCall
deriving DecidableEq, Repr

/-- What one run of `GenericSleep::sleep` did: the kernel call it made and the
value it returned. -/
structure SleepOutcome where
  action : SleepAction
  result : Nat
deriving DecidableEq, Repr

/-- `GenericSleep::sleep` (src/rtos/mod.rs lines 338-354).  `now` is the value
of `time_since_start()` at the call; `notifyCount` is the notification count
the kernel's `task_notify_take` returns when that call is made.  For
`NotifyTake t` the timeout argument is
`t.map_or(TIMEOUT_MAX, |v| v.checked_sub_instant(now).map_or(0, |d| d))` and
the result is the kernel's count; for `Timestamp v` the task is delayed by
`v.checked_sub_instant(now)` when that is `Some`, and `0` is returned. -/
def GenericSleep.sleepRun (s : GenericSleep) (now : Instant) (notifyCount : Nat) :
    SleepOutcome :=
  match s with
  | .notifyTake t =>
      let timeoutArg := match t with
        | none => TIMEOUT_MAX
        | some v => match Instant.checkedSubInstant v now with
            | none => 0
            | some d => d
      ⟨.notifyTakeCall timeoutArg, notifyCount⟩
  | .timestamp v =>
      match Instant.checkedSubInstant v now with
      | some d => ⟨.delayCall d, 0⟩
      | none => ⟨.noCall, 0⟩

/-- **C5.** `sleep` on `Timestamp d` delays the task by exactly the remaining
time `d - now` (a no-op when `d` has already passed) and returns 0; on
`NotifyTake d` it issues a kernel notify-take whose timeout argument is the
non-negative remaining duration to `d` (`TIMEOUT_MAX`, i.e. an unbounded
wait, when `d` is absent; 0 when `d` has passed) and returns the kernel's
notification count. -/
theorem sleep_follows_spec (s : GenericSleep) (now cnt : Nat) :
    (∀ d, s = .timestamp d →
      s.sleepRun now cnt =
        ⟨if now ≤ d then SleepAction.delayCall (d - now) else SleepAction.noCall,
          0⟩) ∧
    (s = .notifyTake none →
      s.sleepRun now cnt = ⟨SleepAction.notifyTakeCall TIMEOUT_MAX, cnt⟩) ∧
    (∀ v, s = .notifyTake (some v) →
      s.sleepRun now cnt =
        ⟨SleepAction.notifyTakeCall (if now ≤ v then v - now else 0), cnt⟩) := by
  refine ⟨?_, ?_, ?_⟩
  · rintro d rfl
    by_cases h : now ≤ d <;>
      simp [GenericSleep.sleepRun, Instant.checkedSubInstant, h]
  · rintro rfl
    rfl
  · rintro v rfl
    by_cases h : now ≤ v <;>
      simp [GenericSleep.sleepRun, Instant.checkedSubInstant, h]

/-- Witness for **C5** at concrete inputs. -/
theorem sleep_follows_spec_witness :
    (GenericSleep.timestamp 5).sleepRun 2 7 =
      ⟨if 2 ≤ 5 then SleepAction.delayCall 3 else SleepAction.noCall, 0⟩ ∧
    (GenericSleep.notifyTake (some 9)).sleepRun 4 3 =
      ⟨SleepAction.notifyTakeCall (if 4 ≤ 9 then 5 else 0), 3⟩ :=
  ⟨(sleep_follows_spec (GenericSleep.timestamp 5) 2 7).1 5 rfl,
    (sleep_follows_spec (GenericSleep.notifyTake (some 9)) 4 3).2.2 9 rfl⟩

/-- Witness for **C4** at concrete inputs. -/
theorem combine_comm_assoc_mono_witness :
    ∃ d, ((GenericSleep.timestamp 7).combine
      (GenericSleep.notifyTake (some 4))).timeout = some d ∧
      d ≤ 7 ∧ d ≤ 4 :=
  (combine_comm_assoc_mono (GenericSleep.timestamp 7)
    (GenericSleep.notifyTake (some 4)) (GenericSleep.notifyTake none)).2.2
    7 4 rfl rfl

/-! ## Selectable events, `select_either` and the `select!` loop

`Selectable` (src/rtos/mod.rs lines 381-387) is a two-method capability:
`poll` consumes the event and yields either the result or a replacement
continuation, `sleep` reads the earliest time re-polling could succeed.  An
event type is embedded as a state machine over a state type `S`: `poll` is a
function `S → Except S T` (`.error` carries the continuation state) and
`sleep` a function `S → GenericSleep`. -/

/-- A `Selectable` event type as a state machine. -/
structure Sel (S T : Type) where
  poll : S → Except S T
  sleep : S → GenericSleep

/-- Which sub-event a combinator polled, in order. -/
inductive Side
  | left
  | right
deriving DecidableEq, Repr

/-- `EitherSelect::poll` from `select_either` (src/rtos/mod.rs lines 434-446),
with the sequence of sub-polls it performs recorded: poll the first event; on
`Ok` return immediately (the second event is not polled); otherwise poll the
second; if both are pending return the pair of continuations. -/
def eitherPoll {SA SB T : Type} (a : Sel SA T) (b : Sel SB T) (s : SA × SB) :
    List Side × Except (SA × SB) T :=
  match a.poll s.1 with
  | .ok r => ([Side.left], .ok r)
  | .error e1 =>
      match b.poll s.2 with
      | .ok r => ([Side.left, Side.right], .ok r)
      | .error e2 => ([Side.left, Side.right], .error (e1, e2))

/-- `EitherSelect::sleep` (src/rtos/mod.rs lines 447-449):
`self.0.sleep().combine(self.1.sleep())`. -/
def eitherSleep {SA SB T : Type} (a : Sel SA T) (b : Sel SB T) (s : SA × SB) :
    GenericSleep :=
  (a.sleep s.1).combine (b.sleep s.2)

/-- **C7.** `select_either` polls `a` first and `b` second in that fixed
order: whenever `a` is ready the combinator returns `a`'s result having
polled only `a` (so `b` is not polled at all, even if it is also ready);
when `a` is pending and `b` ready, `b`'s result is returned; every poll pass
starts with `a`; and the combinator's sleep is the `combine` of the two
events' sleeps. -/
theorem select_either_follows_spec {SA SB T : Type} (a : Sel SA T)
    (b : Sel SB T) (s : SA × SB) :
    (∀ r, a.poll s.1 = .ok r → eitherPoll a b s = ([Side.left], .ok r)) ∧
    (∀ e1 r, a.poll s.1 = .error e1 → b.poll s.2 = .ok r →
      eitherPoll a b s = ([Side.left, Side.right], .ok r)) ∧
    (∀ e1 e2, a.poll s.1 = .error e1 → b.poll s.2 = .error e2 →
      eitherPoll a b s = ([Side.left, Side.right], .error (e1, e2))) ∧
    (eitherPoll a b s).1.head? = some Side.left ∧
    eitherSleep a b s = (a.sleep s.1).combine (b.sleep s.2) := by
  refine ⟨?_, ?_, ?_, ?_, rfl⟩
  · intro r h
    simp [eitherPoll, h]
  · intro e1 r h1 h2
    simp [eitherPoll, h1, h2]
  · intro e1 e2 h1 h2
    simp [eitherPoll, h1, h2]
  · unfold eitherPoll
    cases a.poll s.1 <;> [skip; rfl]
    cases b.poll s.2 <;> rfl

/-- A ready-immediately demonstration event on state type `Nat`: state 1 is
ready with value 99, every other state steps to its successor. -/
def demoSel : Sel Nat Nat where
  poll s := if s = 1 then .ok 99 else .error (s + 1)
  sleep _ := .notifyTake none

/-- Witness for **C7** at concrete inputs. -/
theorem select_either_follows_spec_witness :
    eitherPoll demoSel demoSel (1, 1) = ([Side.left], .ok 99) :=
  (select_either_follows_spec demoSel demoSel (1, 1)).1 99 rfl

/-! The `select!` macro (src/macros/select.rs lines 27-35) expands to
`loop { GenericSleep::sleep(select_sleep!(..)); events = select_match!(..) }`
inside `select_body!`: each iteration awaits the `combine` of all branches'
sleeps once, then `select_match!` (lines 64-80) polls the branches left to
right, breaking out of the loop at the first `Ok` — which `select_body!`
(lines 84-96) routes to exactly that branch's body — and otherwise
rebuilding the tuple of continuations for the next iteration.  The embedding
models the branch tuple as a list of states of one state machine. -/

/-- `select_match!`: poll the branch states left to right; stop at the first
`.ok`, returning its branch index and value; otherwise collect the updated
continuations.  The first component counts how many branches were polled. -/
def pollAllT {S T : Type} (b : Sel S T) : List S → Nat × Except (List S) (Nat × T)
  | [] => (0, .error [])
  | s :: rest =>
    match b.poll s with
    | .ok t => (1, .ok (0, t))
    | .error e =>
        let r := pollAllT b rest
        match r.2 with
        | .ok (i, t) => (r.1 + 1, .ok (i + 1, t))
        | .error rest2 => (r.1 + 1, .error (e :: rest2))

/-- `select_sleep!` (src/macros/select.rs lines 100-105): the `combine`-fold
of all branches' sleeps (`none` for the empty list, which `select!` never
produces). -/
def combineSleeps {S T : Type} (b : Sel S T) : List S → Option GenericSleep
  | [] => none
  | s :: rest =>
      some (match combineSleeps b rest with
        | none => b.sleep s
        | some g => (b.sleep s).combine g)

/-- Result of running the `select!` loop for a bounded number of iterations:
either some branch was chosen (its body runs once) or the fuel ran out with
the branches still pending (the real loop simply keeps iterating). -/
inductive SelectOutcome (S T : Type)
  | chosen (branch : Nat) (value : T)
  | stillPending (states : List S)

/-- The `select!` loop.  Each iteration records one trace entry: the combined
sleep that was awaited and the number of branch polls performed. -/
def selectLoop {S T : Type} (b : Sel S T) :
    Nat → List S → List (Option GenericSleep × Nat) →
    List (Option GenericSleep × Nat) × SelectOutcome S T
  | 0, ss, trace => (trace, .stillPending ss)
  | fuel + 1, ss, trace =>
    let slp := combineSleeps b ss
    match pollAllT b ss with
    | (c, .ok (i, t)) => (trace ++ [(slp, c)], .chosen i t)
    | (c, .error ss2) => selectLoop b fuel ss2 (trace ++ [(slp, c)])

theorem pollAllT_ok {S T : Type} (b : Sel S T) (ss : List S) (i : Nat) (t : T)
    (h : (pollAllT b ss).2 = .ok (i, t)) :
    (pollAllT b ss).1 = i + 1 ∧
    (∃ s, ss.get? i = some s ∧ b.poll s = .ok t) ∧
    ∀ j, j < i → ∃ sj ej, ss.get? j = some sj ∧ b.poll sj = .error ej := by
  induction ss generalizing i with
  | nil => simp [pollAllT] at h
  | cons s rest ih =>
    cases hp : b.poll s with
    | ok t0 =>
      simp [pollAllT, hp] at h
      obtain ⟨rfl, rfl⟩ := h
      exact ⟨by simp [pollAllT, hp], ⟨s, rfl, hp⟩,
        fun j hj => absurd hj (Nat.not_lt_zero j)⟩
    | error e =>
      cases hr : (pollAllT b rest).2 with
      | ok p =>
        obtain ⟨i0, t0⟩ := p
        simp [pollAllT, hp, hr] at h
        obtain ⟨rfl, rfl⟩ := h
        obtain ⟨hc, ⟨s0, hs0, hps0⟩, hbefore⟩ := ih i0 hr
        refine ⟨?_, ⟨s0, by simpa using hs0, hps0⟩, ?_⟩
        · simp [pollAllT, hp, hr, hc]
        · intro j hj
          cases j with
          | zero => exact ⟨s, e, rfl, hp⟩
          | succ j0 =>
            obtain ⟨sj, ej, hsj, hpj⟩ := hbefore j0 (Nat.lt_of_succ_lt_succ hj)
            exact ⟨sj, ej, by simpa using hsj, hpj⟩
      | error rest2 =>
        simp [pollAllT, hp, hr] at h

theorem pollAllT_error {S T : Type} (b : Sel S T) (ss ss2 : List S)
    (h : (pollAllT b ss).2 = .error ss2) :
    (pollAllT b ss).1 = ss.length ∧ ss2.length = ss.length ∧
    ∀ j, j < ss.length →
      ∃ sj ej, ss.get? j = some sj ∧ ss2.get? j = some ej ∧
        b.poll sj = .error ej := by
  induction ss generalizing ss2 with
  | nil =>
    simp [pollAllT] at h
    subst h
    exact ⟨rfl, rfl, fun j hj => absurd hj (Nat.not_lt_zero j)⟩
  | cons s rest ih =>
    cases hp : b.poll s with
    | ok t0 => simp [pollAllT, hp] at h
    | error e =>
      cases hr : (pollAllT b rest).2 with
      | ok p =>
        obtain ⟨i0, t0⟩ := p
        simp [pollAllT, hp, hr] at h
      | error rest2 =>
        simp [pollAllT, hp, hr] at h
        subst h
        obtain ⟨hc, hlen, hall⟩ := ih rest2 hr
        refine ⟨by simp [pollAllT, hp, hr, hc], by simp [hlen], ?_⟩
        intro j hj
        cases j with
        | zero => exact ⟨s, e, rfl, rfl, hp⟩
        | succ j0 =>
          obtain ⟨sj, ej, hsj, hej, hpj⟩ :=
            hall j0 (Nat.lt_of_succ_lt_succ (by simpa using hj))
          exact ⟨sj, ej, by simpa using hsj, by simpa using hej, hpj⟩

/-- **C6.** In every iteration of the `select!` loop: the combined sleep of
all branches is awaited once, then the branches are polled left to right; if
some branch's poll succeeds, the leftmost such branch terminates the loop
and is the single chosen branch (branches to its right are not even polled),
its body alone running once; if every poll fails, the iteration keeps the
updated continuations of every branch and the loop repeats on them. -/
theorem select_loop_follows_spec {S T : Type} (b : Sel S T) (fuel : Nat)
    (ss : List S) (trace : List (Option GenericSleep × Nat)) :
    (selectLoop b (fuel + 1) ss trace =
      match pollAllT b ss with
      | (c, .ok (i, t)) => (trace ++ [(combineSleeps b ss, c)], .chosen i t)
      | (c, .error ss2) =>
          selectLoop b fuel ss2 (trace ++ [(combineSleeps b ss, c)])) ∧
    (∀ i t, (pollAllT b ss).2 = .ok (i, t) →
      selectLoop b (fuel + 1) ss trace =
        (trace ++ [(combineSleeps b ss, i + 1)], .chosen i t) ∧
      (∃ s, ss.get? i = some s ∧ b.poll s = .ok t) ∧
      ∀ j, j < i → ∃ sj ej, ss.get? j = some sj ∧ b.poll sj = .error ej) ∧
    (∀ ss2, (pollAllT b ss).2 = .error ss2 →
      selectLoop b (fuel + 1) ss trace =
        selectLoop b fuel ss2 (trace ++ [(combineSleeps b ss, ss.length)]) ∧
      ss2.length = ss.length ∧
      ∀ j, j < ss.length →
        ∃ sj ej, ss.get? j = some sj ∧ ss2.get? j = some ej ∧
          b.poll sj = .error ej) := by
  refine ⟨?_, ?_, ?_⟩
  · rfl
  · intro i t h
    obtain ⟨hc, hready, hbefore⟩ := pollAllT_ok b ss i t h
    refine ⟨?_, hready, hbefore⟩
    have : pollAllT b ss = (i + 1, .ok (i, t)) := by
      rw [← hc, ← h]
    simp [selectLoop, this]
  · intro ss2 h
    obtain ⟨hc, hlen, hall⟩ := pollAllT_error b ss ss2 h
    refine ⟨?_, hlen, hall⟩
    have : pollAllT b ss = (ss.length, .error ss2) := by
      rw [← hc, ← h]
    simp [selectLoop, this]

/-- Witness for **C6** at concrete inputs: branches `[0, 1, 5]` of `demoSel`,
whose branch 1 is ready; the loop chooses branch 1 in its first iteration
having polled exactly branches 0 and 1. -/
theorem select_loop_follows_spec_witness :
    selectLoop demoSel 1 [0, 1, 5] [] =
      ([(combineSleeps demoSel [0, 1, 5], 1 + 1)],
        SelectOutcome.chosen 1 99) ∧
    (∃ s, [0, 1, 5].get? 1 = some s ∧ demoSel.poll s = .ok 99) ∧
    ∀ j, j < 1 → ∃ sj ej, [0, 1, 5].get? j = some sj ∧
      demoSel.poll sj = .error ej :=
  (select_loop_follows_spec demoSel 0 [0, 1, 5] []).2.1 1 99 rfl

/-! ## Mutex wrapper (src/rtos/mutex.rs)

The kernel's `mutex_recursive_take(mutex, timeout)` and
`mutex_recursive_give(mutex)` are oracles: `take` maps the timeout argument
to whether the mutex was acquired, `give` is whether the release succeeded.
Each embedded operation returns the argument it passed to the kernel
alongside its result. -/

/-- One run of `Mutex::poll`: the timeout passed to `mutex_recursive_take`
and the optional guard returned. -/
structure MutexPollRun where
  timeoutArg : Nat
  guard : Option Unit
deriving DecidableEq, Repr

/-- `Mutex::poll` (src/rtos/mutex.rs lines 75-81): calls
`mutex_recursive_take(self.mutex, 0)` and wraps success as `Some(guard)`. -/
def mutexPoll (take : Nat → Bool) : MutexPollRun :=
  ⟨0, if take 0 then some () else none⟩

/-- One run of `MutexGuard`'s destructor: whether `mutex_recursive_give` was
invoked and whether the destructor panicked. -/
structure GuardDropRun where
  releaseCalled : Bool
  panicked : Bool
deriving DecidableEq, Repr

/-- `Drop for MutexGuard` (src/rtos/mutex.rs lines 156-163): unconditionally
calls `mutex_recursive_give`, panicking (not returning an error value) when
the kernel reports failure. -/
def mutexGuardDrop (give : Bool) : GuardDropRun :=
  ⟨true, !give⟩

/-- **C8.** `Mutex::poll` passes a zero timeout to the kernel take (so it
returns immediately, never blocking) and yields `Some(guard)` exactly when
the take succeeded, `None` otherwise; the guard's destructor always invokes
the kernel release, and a kernel-level failure to release panics rather than
producing a recoverable error value. -/
theorem mutex_poll_drop_follows_spec (take : Nat → Bool) (give : Bool) :
    (mutexPoll take).timeoutArg = 0 ∧
    ((mutexPoll take).guard.isSome ↔ take 0 = true) ∧
    ((mutexPoll take).guard = none ↔ take 0 = false) ∧
    (mutexGuardDrop give).releaseCalled = true ∧
    ((mutexGuardDrop give).panicked = true ↔ give = false) := by
  refine ⟨rfl, ?_, ?_, rfl, ?_⟩
  · cases h : take 0 <;> simp [mutexPoll, h]
  · cases h : take 0 <;> simp [mutexPoll, h]
  · cases give <;> simp [mutexGuardDrop]

/-! ## FreeRTOS queue wrapper (src/rtos/queue.rs)

`Duration` is embedded as a whole number of nanoseconds (Rust
`core::time::Duration` is a nanosecond-precision span; `as_secs()` is
division by 10^9).  The kernel queue calls are oracles from the timeout
argument they receive to their outcome. -/

/-- `Duration::as_secs`: the number of *whole* seconds in a duration given in
nanoseconds. -/
def durationAsSecs (nanos : Nat) : Nat :=
  nanos / 1000000000

/-- The `timeout.as_secs() as u32` expression the queue methods pass to the
kernel (src/rtos/queue.rs lines 43, 60, 79, 98): whole seconds, truncated to
`u32`. -/
def queueTimeoutArg (nanos : Nat) : Nat :=
  durationAsSecs nanos % 2 ^ 32

/-- One run of a queue operation: the timeout argument passed to the kernel
and the result. -/
structure QueueOpRun (R : Type) where
  timeoutArg : Nat
  result : R
deriving DecidableEq, Repr

/-- `Queue::prepend` (src/rtos/queue.rs lines 38-50): on kernel failure the
item is handed back through `Err`. -/
def queuePrepend {T : Type} (kernel : Nat → Bool) (item : T) (timeout : Nat) :
    QueueOpRun (Except T Unit) :=
  ⟨queueTimeoutArg timeout,
    if kernel (queueTimeoutArg timeout) then .ok () else .error item⟩

/-- `Queue::append` (src/rtos/queue.rs lines 55-67): on kernel failure the
item is handed back through `Err`. -/
def queueAppend {T : Type} (kernel : Nat → Bool) (item : T) (timeout : Nat) :
    QueueOpRun (Except T Unit) :=
  ⟨queueTimeoutArg timeout,
    if kernel (queueTimeoutArg timeout) then .ok () else .error item⟩

/-- `Queue::peek` (src/rtos/queue.rs lines 72-87): forwards the kernel's
optional element. -/
def queuePeek {T : Type} (kernel : Nat → Option T) (timeout : Nat) :
    QueueOpRun (Option T) :=
  ⟨queueTimeoutArg timeout, kernel (queueTimeoutArg timeout)⟩

/-- `Queue::recv` (src/rtos/queue.rs lines 91-106): forwards the kernel's
optional element. -/
def queueRecv {T : Type} (kernel : Nat → Option T) (timeout : Nat) :
    QueueOpRun (Option T) :=
  ⟨queueTimeoutArg timeout, kernel (queueTimeoutArg timeout)⟩

/-- **C10.** All four queue operations pass the duration truncated to whole
seconds (`as_secs`, then `as u32`) as the kernel timeout, so a duration
shorter than one second reaches the kernel as a zero (immediate) timeout;
and on kernel failure `append`/`prepend` return the original item unchanged
through `Err`. -/
theorem queue_timeouts_follow_spec {T : Type} (kb : Nat → Bool)
    (ko : Nat → Option T) (item : T) (d : Nat) :
    (queuePrepend kb item d).timeoutArg = durationAsSecs d % 2 ^ 32 ∧
    (queueAppend kb item d).timeoutArg = durationAsSecs d % 2 ^ 32 ∧
    (queuePeek ko d).timeoutArg = durationAsSecs d % 2 ^ 32 ∧
    (queueRecv ko d).timeoutArg = durationAsSecs d % 2 ^ 32 ∧
    (d < 1000000000 → (queueAppend kb item d).timeoutArg = 0 ∧
      (queuePrepend kb item d).timeoutArg = 0 ∧
      (queuePeek ko d).timeoutArg = 0 ∧ (queueRecv ko d).timeoutArg = 0) ∧
    (kb (queueTimeoutArg d) = false →
      (queueAppend kb item d).result = .error item ∧
      (queuePrepend kb item d).result = .error item) := by
  refine ⟨rfl, rfl, rfl, rfl, ?_, ?_⟩
  · intro hd
    have h0 : queueTimeoutArg d = 0 := by
      simp [queueTimeoutArg, durationAsSecs, Nat.div_eq_of_lt hd]
    exact ⟨h0, h0, h0, h0⟩
  · intro hk
    constructor <;> simp [queueAppend, queuePrepend, hk]

/-- Witness for **C10** at concrete inputs: a duration of 999 999 999 ns
reaches the kernel as a zero timeout, and a full kernel rejects the item. -/
theorem queue_timeouts_follow_spec_witness :
    ((999999999 < 1000000000 →
      (queueAppend (fun _ => false) (37 : Nat) 999999999).timeoutArg = 0 ∧
      (queuePrepend (fun _ => false) (37 : Nat) 999999999).timeoutArg = 0 ∧
      (queuePeek (fun _ => (none : Option Nat)) 999999999).timeoutArg = 0 ∧
      (queueRecv (fun _ => (none : Option Nat)) 999999999).timeoutArg = 0)) ∧
    ((fun _ => false : Nat → Bool) (queueTimeoutArg 999999999) = false →
      (queueAppend (fun _ => false) (37 : Nat) 999999999).result =
        .error 37 ∧
      (queuePrepend (fun _ => false) (37 : Nat) 999999999).result =
        .error 37) :=
  ⟨fun _ => ((queue_timeouts_follow_spec (fun _ => false)
      (fun _ => (none : Option Nat)) 37 999999999).2.2.2.2.1 (by decide)),
    (queue_timeouts_follow_spec (fun _ => false)
      (fun _ => (none : Option Nat)) 37 999999999).2.2.2.2.2⟩

/-! ## Rendez-vous channel (src/rtos/channel.rs)

`src/rtos/channel.rs` is in the snapshot, but the `Event`, `EventHandle` and
`Semaphore` types it builds on (`src/rtos/event.rs`, `src/rtos/semaphore.rs`)
are not; they are modelled from the spec below.  The semaphore count is
carried as a plain `Nat` in the channel state. -/

/-- Modelled from the spec: `Event` (src/rtos/event.rs, absent from the
snapshot; spec §3 and §4.3): an unordered registry of waiting tasks;
`notify()` increments every currently-registered waiter's kernel
notification counter and does not clear the registry by itself; task_count
is the number of registered waiters. -/
structure Event where
  waiters : List Nat
deriving DecidableEq, Repr

/-- The registered-waiter count of an event registry. -/
def Event.taskCount (e : Event) : Nat :=
  e.waiters.length

/-- Modelled from the spec: `Event::notify` (spec §4.3) delivers one
notification to every currently-registered waiter, leaving the registry
itself unchanged; the embedding returns the list of notified tasks. -/
def Event.notify (e : Event) : List Nat :=
  e.waiters

/-- `ChannelData` (src/rtos/channel.rs lines 187-192): the mutex-protected
shared cell of a channel. -/
structure ChannelData (T : Type) where
  sendEvent : Event
  receiveEvent : Event
  value : Option T
  seq : Bool

/-- How one run of `SendSelect::poll` ended. -/
inductive SendPollResult (T : Type)
  | assertFailed
  | syncPanic
  | pending (value : T)
  | success

/-- What one run of `SendSelect::poll` did. -/
structure SendPollRun (T : Type) where
  /-- The send-serialization mutex is held for the whole poll body. -/
  sendLockHeld : Bool
  /-- The shared cell as written under the data lock (`none` when the
  acknowledgment-count assertion fired before any write). -/
  midData : Option (ChannelData T)
  /-- The receivers notified. -/
  notified : List Nat
  /-- How many `ack_sem.wait` calls were made. -/
  acksAwaited : Nat
  result : SendPollResult T

/-- The first index `i < n` at which an acknowledgment wait times out. -/
def firstAckFailure (ackOk : Nat → Bool) (n : Nat) : Option Nat :=
  (List.range n).find? (fun i => !ackOk i)

/-- `SendSelect::poll` (src/rtos/channel.rs lines 29-62).  `data` is the
shared cell when the data lock is first taken, `ackCount` the semaphore
count read by the assertion (modelled from the spec: `Semaphore::count`,
src/rtos/semaphore.rs absent from the snapshot, is the current counter
value), `ackOk i` whether the `i`-th bounded acknowledgment wait obtains an
acknowledgment in time, and `finalValue` the contents of the value cell at
the final check (receivers run concurrently during the waits). -/
def sendPoll {T : Type} (data : ChannelData T) (ackCount : Nat) (v : T)
    (ackOk : Nat → Bool) (finalValue : Option T) : SendPollRun T :=
  if ackCount ≠ 0 then
    ⟨true, none, [], 0, .assertFailed⟩
  else
    let mid : ChannelData T :=
      { data with value := some v, seq := !data.seq }
    let notified := mid.receiveEvent.notify
    let n := mid.receiveEvent.taskCount
    match firstAckFailure ackOk n with
    | some i => ⟨true, some mid, notified, i + 1, .syncPanic⟩
    | none =>
        match finalValue with
        | some v2 => ⟨true, some mid, notified, n, .pending v2⟩
        | none => ⟨true, some mid, notified, n, .success⟩

theorem firstAckFailure_none_iff (ackOk : Nat → Bool) (n : Nat) :
    firstAckFailure ackOk n = none ↔ ∀ i, i < n → ackOk i = true := by
  unfold firstAckFailure
  rw [List.find?_eq_none]
  constructor
  · intro h i hi
    have := h i (List.mem_range.mpr hi)
    simpa using this
  · intro h i hi
    simp [h i (List.mem_range.mp hi)]

theorem firstAckFailure_isSome (ackOk : Nat → Bool) (n : Nat) (i : Nat)
    (hi : i < n) (hfail : ackOk i = false) :
    ∃ j, firstAckFailure ackOk n = some j := by
  rcases h : firstAckFailure ackOk n with _ | j
  · rw [firstAckFailure_none_iff] at h
    rw [h i hi] at hfail
    cases hfail
  · exact ⟨j, rfl⟩

/-- **C1.** `SendSelect::poll` runs entirely under the send-serialization
lock; it asserts the acknowledgment semaphore count is zero (panicking
otherwise before touching the cell), then stores the value, flips the parity
bit, notifies all currently-registered receivers and records their number
`n`; it then waits for exactly `n` acknowledgments, panicking at the first
wait that fails; and finally it returns the value as a retryable pending
continuation exactly when the value is still present in the shared cell,
succeeding otherwise. -/
theorem channel_send_poll_follows_spec {T : Type} (data : ChannelData T)
    (ackCount : Nat) (v : T) (ackOk : Nat → Bool) (finalValue : Option T) :
    (sendPoll data ackCount v ackOk finalValue).sendLockHeld = true ∧
    (ackCount ≠ 0 →
      (sendPoll data ackCount v ackOk finalValue).result =
        SendPollResult.assertFailed ∧
      (sendPoll data ackCount v ackOk finalValue).midData = none) ∧
    (ackCount = 0 →
      (sendPoll data ackCount v ackOk finalValue).midData =
        some { data with value := some v, seq := !data.seq } ∧
      (sendPoll data ackCount v ackOk finalValue).notified =
        data.receiveEvent.waiters ∧
      ((∀ i, i < data.receiveEvent.taskCount → ackOk i = true) →
        (sendPoll data ackCount v ackOk finalValue).acksAwaited =
          data.receiveEvent.taskCount ∧
        (∀ v2, finalValue = some v2 →
          (sendPoll data ackCount v ackOk finalValue).result =
            SendPollResult.pending v2) ∧
        (finalValue = none →
          (sendPoll data ackCount v ackOk finalValue).result =
            SendPollResult.success)) ∧
      (∀ i, i < data.receiveEvent.taskCount → ackOk i = false →
        (sendPoll data ackCount v ackOk finalValue).result =
          SendPollResult.syncPanic)) := by
  refine ⟨?_, ?_, ?_⟩
  · unfold sendPoll
    by_cases h : ackCount ≠ 0
    · simp [h]
    · simp only [h, if_false, reduceIte]
      rcases hf : firstAckFailure ackOk
          ({ data with value := some v, seq := !data.seq} :
            ChannelData T).receiveEvent.taskCount with _ | i
      · cases finalValue <;> simp [hf]
      · simp [hf]
  · intro h
    simp [sendPoll, h]
  · intro h
    subst h
    have hn : ({ data with value := some v, seq := !data.seq} :
        ChannelData T).receiveEvent.taskCount = data.receiveEvent.taskCount :=
      rfl
    refine ⟨?_, ?_, ?_, ?_⟩
    · rcases hf : firstAckFailure ackOk data.receiveEvent.taskCount with _ | i
      · cases finalValue <;> simp [sendPoll, hn, hf]
      · simp [sendPoll, hn, hf]
    · rcases hf : firstAckFailure ackOk data.receiveEvent.taskCount with _ | i
      · cases finalValue <;> simp [sendPoll, hn, hf, Event.notify]
      · simp [sendPoll, hn, hf, Event.notify]
    · intro hall
      have hf : firstAckFailure ackOk data.receiveEvent.taskCount = none :=
        (firstAckFailure_none_iff ackOk _).mpr hall
      refine ⟨?_, ?_, ?_⟩
      · cases finalValue <;> simp [sendPoll, hn, hf]
      · rintro v2 rfl
        simp [sendPoll, hn, hf]
      · rintro rfl
        simp [sendPoll, hn, hf]
    · intro i hi hfail
      obtain ⟨j, hj⟩ := firstAckFailure_isSome ackOk _ i hi hfail
      simp [sendPoll, hn, hj]

/-- Witness for **C1** at concrete inputs: two registered receivers, both
acknowledgment waits succeed, and no receiver took the value, so the send is
returned as retryable. -/
theorem channel_send_poll_follows_spec_witness :
    (sendPoll ⟨⟨[]⟩, ⟨[4, 7]⟩, none, false⟩ 0 (5 : Nat) (fun _ => true)
        (some 5)).midData =
      some ⟨⟨[]⟩, ⟨[4, 7]⟩, some 5, true⟩ ∧
    (sendPoll ⟨⟨[]⟩, ⟨[4, 7]⟩, none, false⟩ 0 (5 : Nat) (fun _ => true)
        (some 5)).notified = [4, 7] ∧
    ((∀ i, i < (⟨⟨[]⟩, ⟨[4, 7]⟩, none, false⟩ :
        ChannelData Nat).receiveEvent.taskCount → (fun _ => true) i = true) →
      (sendPoll ⟨⟨[]⟩, ⟨[4, 7]⟩, none, false⟩ 0 (5 : Nat) (fun _ => true)
          (some 5)).acksAwaited = 2 ∧
      (∀ v2, (some 5 : Option Nat) = some v2 →
        (sendPoll ⟨⟨[]⟩, ⟨[4, 7]⟩, none, false⟩ 0 (5 : Nat) (fun _ => true)
            (some 5)).result = SendPollResult.pending v2) ∧
      ((some 5 : Option Nat) = none →
        (sendPoll ⟨⟨[]⟩, ⟨[4, 7]⟩, none, false⟩ 0 (5 : Nat) (fun _ => true)
            (some 5)).result = SendPollResult.success)) ∧
    (∀ i, i < (⟨⟨[]⟩, ⟨[4, 7]⟩, none, false⟩ :
        ChannelData Nat).receiveEvent.taskCount → (fun _ => true) i = false →
      (sendPoll ⟨⟨[]⟩, ⟨[4, 7]⟩, none, false⟩ 0 (5 : Nat) (fun _ => true)
          (some 5)).result = SendPollResult.syncPanic) :=
  (channel_send_poll_follows_spec (⟨⟨[]⟩, ⟨[4, 7]⟩, none, false⟩ :
    ChannelData Nat) 0 5 (fun _ => true) (some 5)).2.2 rfl

/-- The shared-lock-scoped actions a channel receiver performs, in order. -/
inductive RAct
  | lockData
  | postAck
  | updateSeq
  | takeValue
  | clearHandle
  | notifySend
  | unlockData
deriving DecidableEq, Repr

/-- A receiver continuation's own state: its last-observed parity bit
(`ReceiveSelect.seq`) and whether its registration has already resolved
(`EventHandle::is_done`; modelled from the spec, src/rtos/event.rs being
absent from the snapshot: a handle is done once cleared). -/
structure ReceiverLocal where
  seq : Bool
  done : Bool
deriving DecidableEq, Repr

/-- What one run of `ReceiveSelect::poll` or of its destructor did. -/
structure ReceiveRun (T : Type) where
  /-- The lock-scoped actions, in order. -/
  trace : List RAct
  /-- Number of `ack_sem.post()` calls made. -/
  posts : Nat
  newData : ChannelData T
  newLocal : ReceiverLocal
  /-- `some v` when the poll resolved with `Ok(v)`; `none` when it returned
  the pending continuation (or for the destructor). -/
  result : Option T

/-- `ReceiveSelect::poll` (src/rtos/channel.rs lines 104-120): under the data
lock, post one acknowledgment and adopt the shared parity if the observed
parity differs; then take the value if present (clearing the registration)
or notify the send side and stay pending. -/
def receivePoll {T : Type} (data : ChannelData T) (loc : ReceiverLocal) :
    ReceiveRun T :=
  let owed := loc.seq != data.seq
  let ackTrace := if owed then [RAct.postAck, RAct.updateSeq] else []
  let loc1 : ReceiverLocal := { loc with seq := data.seq }
  match data.value with
  | some v =>
      ⟨[RAct.lockData] ++ ackTrace ++
          [RAct.takeValue, RAct.clearHandle, RAct.unlockData],
        if owed then 1 else 0,
        { data with value := none },
        { loc1 with done := true },
        some v⟩
  | none =>
      ⟨[RAct.lockData] ++ ackTrace ++ [RAct.notifySend, RAct.unlockData],
        if owed then 1 else 0,
        data,
        loc1,
        none⟩

/-- `Drop for ReceiveSelect` (src/rtos/channel.rs lines 128-140): with the
data mutex held, post the acknowledgment if the parity differs and the
registration has not already resolved, then clear the registration. -/
def receiveDrop {T : Type} (data : ChannelData T) (loc : ReceiverLocal) :
    ReceiveRun T :=
  let owed := (loc.seq != data.seq) && !loc.done
  ⟨[RAct.lockData] ++ (if owed then [RAct.postAck] else []) ++
      [RAct.clearHandle, RAct.unlockData],
    if owed then 1 else 0,
    data,
    { loc with done := true },
    none⟩

/-- **C2.** A receiver that observes a parity bit differing from its
last-observed parity posts exactly one acknowledgment for the stale round,
on both completion paths: `poll` posts and adopts the shared parity before
attempting to take the value, and a continuation dropped before resolving
posts the owed acknowledgment inside the data-lock scope and only when the
registration has not already resolved; moreover after a poll the
acknowledgment is not posted a second time by a later poll or by the
destructor (under an unchanged shared parity), so an abandoned receiver
never leaves the sender's acknowledgment count short. -/
theorem channel_receive_ack_follows_spec {T : Type} (data : ChannelData T)
    (loc : ReceiverLocal) :
    (loc.seq ≠ data.seq →
      (receivePoll data loc).posts = 1 ∧
      (receivePoll data loc).trace.take 3 =
        [RAct.lockData, RAct.postAck, RAct.updateSeq] ∧
      (receivePoll data loc).newLocal.seq = data.seq) ∧
    (loc.seq = data.seq → (receivePoll data loc).posts = 0) ∧
    (loc.seq ≠ data.seq → loc.done = false →
      (receiveDrop data loc).posts = 1 ∧
      (receiveDrop data loc).trace =
        [RAct.lockData, RAct.postAck, RAct.clearHandle, RAct.unlockData]) ∧
    (loc.done = true → (receiveDrop data loc).posts = 0) ∧
    (loc.seq = data.seq → (receiveDrop data loc).posts = 0) ∧
    (receivePoll data ((receivePoll data loc).newLocal)).posts = 0 ∧
    (receiveDrop data ((receivePoll data loc).newLocal)).posts = 0 := by
  refine ⟨?_, ?_, ?_, ?_, ?_, ?_, ?_⟩
  · intro h
    have howed : (loc.seq != data.seq) = true := by
      cases hl : loc.seq <;> cases hd : data.seq <;> simp_all
    cases hv : data.value <;> simp [receivePoll, hv, howed]
  · intro h
    have howed : (loc.seq != data.seq) = false := by simp [h]
    cases hv : data.value <;> simp [receivePoll, hv, howed]
  · intro h hdone
    have howed : ((loc.seq != data.seq) && !loc.done) = true := by
      cases hl : loc.seq <;> cases hd : data.seq <;> simp_all
    simp [receiveDrop, howed]
  · intro h
    have howed : ((loc.seq != data.seq) && !loc.done) = false := by
      simp [h]
    simp [receiveDrop, howed]
  · intro h
    have howed : ((loc.seq != data.seq) && !loc.done) = false := by
      simp [h]
    simp [receiveDrop, howed]
  · have hseq : ((receivePoll data loc).newLocal).seq = data.seq := by
      cases hv : data.value <;> simp [receivePoll, hv]
    have howed : (((receivePoll data loc).newLocal).seq != data.seq) = false := by
      simp [hseq]
    cases hv : data.value <;> simp [receivePoll, hv, howed]
  · have hseq : ((receivePoll data loc).newLocal).seq = data.seq := by
      cases hv : data.value <;> simp [receivePoll, hv]
    have howed : ((((receivePoll data loc).newLocal).seq != data.seq) &&
        !((receivePoll data loc).newLocal).done) = false := by
      simp [hseq]
    simp [receiveDrop, howed]

/-- Witness for **C2** at concrete inputs: a receiver with stale parity
(`false` vs the cell's `true`) posts exactly one acknowledgment on the poll
path, parity-first, and on the destructor path inside the lock scope. -/
theorem channel_receive_ack_follows_spec_witness :
    ((receivePoll (⟨⟨[]⟩, ⟨[]⟩, none, true⟩ : ChannelData Nat)
        ⟨false, false⟩).posts = 1 ∧
      (receivePoll (⟨⟨[]⟩, ⟨[]⟩, none, true⟩ : ChannelData Nat)
        ⟨false, false⟩).trace.take 3 =
        [RAct.lockData, RAct.postAck, RAct.updateSeq] ∧
      (receivePoll (⟨⟨[]⟩, ⟨[]⟩, none, true⟩ : ChannelData Nat)
        ⟨false, false⟩).newLocal.seq = true) ∧
    ((receiveDrop (⟨⟨[]⟩, ⟨[]⟩, none, true⟩ : ChannelData Nat)
        ⟨false, false⟩).posts = 1 ∧
      (receiveDrop (⟨⟨[]⟩, ⟨[]⟩, none, true⟩ : ChannelData Nat)
        ⟨false, false⟩).trace =
        [RAct.lockData, RAct.postAck, RAct.clearHandle, RAct.unlockData]) :=
  ⟨(channel_receive_ack_follows_spec (⟨⟨[]⟩, ⟨[]⟩, none, true⟩ :
      ChannelData Nat) ⟨false, false⟩).1 (by decide),
    (channel_receive_ack_follows_spec (⟨⟨[]⟩, ⟨[]⟩, none, true⟩ :
      ChannelData Nat) ⟨false, false⟩).2.2.1 (by decide) rfl⟩

/-! ## Lifecycle context replacement (src/robot.rs)

`ContextWrapper::replace` (src/robot.rs lines 52-60) is in the snapshot;
the `Context` type it manipulates (src/rtos/context.rs) is not and is
modelled from the spec. -/

/-- Modelled from the spec: `Context` (src/rtos/context.rs, absent from the
snapshot; spec §3 and §4.7): a cancellation-tree node owning a
cancelled-flag.  Only the flag matters to the replacement claim; nodes are
distinguished by an id. -/
structure Context where
  id : Nat
  cancelled : Bool
deriving DecidableEq, Repr

/-- Modelled from the spec: `Context::cancel` (spec §4.7) idempotently sets
the cancelled flag (the recursive cancellation of children and the
registry notification do not affect this node's flag beyond that). -/
def Context.cancel (c : Context) : Context :=
  { c with cancelled := true }

/-- Modelled from the spec: `Context::new_global` constructs a fresh,
un-cancelled top-level context. -/
def Context.newGlobal (freshId : Nat) : Context :=
  ⟨freshId, false⟩

/-- The steps of `ContextWrapper::replace`, in order. -/
inductive CAct
  | lock
  | takeOld
  | cancelOld
  | makeNew
  | install
  | unlock
deriving DecidableEq, Repr

/-- The observable situation between two steps of `replace`: the current
cancelled-flag of the previously-active context (`none` when there was
none), whether the fresh context exists yet, and the slot contents. -/
structure ReplaceSnapshot where
  oldCancelled : Option Bool
  newPresent : Bool
  slotNow : Option Context
deriving DecidableEq, Repr

/-- What one run of `ContextWrapper::replace` did. -/
structure ReplaceRun where
  trace : List CAct
  /-- One snapshot after each step. -/
  snapshots : List ReplaceSnapshot
  /-- The previously-active context as it stands at the end. -/
  oldAfter : Option Context
  finalSlot : Option Context
  returned : Context

/-- `ContextWrapper::replace` (src/robot.rs lines 52-60): under one
acquisition of the wrapper's mutex, `take` the slot, cancel the taken
context if one was present, build a fresh global context, install a clone
of it in the slot and return it. -/
def contextReplace (slot0 : Option Context) (freshId : Nat) : ReplaceRun :=
  let fresh := Context.newGlobal freshId
  match slot0 with
  | some old =>
      let old1 := old.cancel
      { trace := [CAct.lock, CAct.takeOld, CAct.cancelOld, CAct.makeNew,
          CAct.install, CAct.unlock]
        snapshots := [
          ⟨some old.cancelled, false, some old⟩,
          ⟨some old.cancelled, false, none⟩,
          ⟨some true, false, none⟩,
          ⟨some true, true, none⟩,
          ⟨some true, true, some fresh⟩,
          ⟨some true, true, some fresh⟩]
        oldAfter := some old1
        finalSlot := some fresh
        returned := fresh }
  | none =>
      { trace := [CAct.lock, CAct.takeOld, CAct.makeNew, CAct.install,
          CAct.unlock]
        snapshots := [
          ⟨none, false, none⟩,
          ⟨none, false, none⟩,
          ⟨none, true, none⟩,
          ⟨none, true, some fresh⟩,
          ⟨none, true, some fresh⟩]
        oldAfter := none
        finalSlot := some fresh
        returned := fresh }

/-- **C9.** `ContextWrapper::replace` performs, under a single acquisition
of its internal lock, the sequence take-old, cancel-old (when one was
present), build-fresh, install-clone, returning the fresh context; the
fresh context is installed un-cancelled, a previously-present context ends
cancelled, and at no intermediate point do an un-cancelled old context and
the new context coexist. -/
theorem context_replace_follows_spec (slot0 : Option Context)
    (freshId : Nat) :
    ((contextReplace slot0 freshId).trace.head? = some CAct.lock ∧
      (contextReplace slot0 freshId).trace.getLast? = some CAct.unlock ∧
      (contextReplace slot0 freshId).trace.count CAct.lock = 1 ∧
      (contextReplace slot0 freshId).trace.count CAct.unlock = 1) ∧
    (∀ old, slot0 = some old →
      (contextReplace slot0 freshId).oldAfter = some old.cancel ∧
      old.cancel.cancelled = true ∧
      (contextReplace slot0 freshId).trace =
        [CAct.lock, CAct.takeOld, CAct.cancelOld, CAct.makeNew,
          CAct.install, CAct.unlock]) ∧
    (slot0 = none → (contextReplace slot0 freshId).oldAfter = none) ∧
    (contextReplace slot0 freshId).finalSlot =
      some (Context.newGlobal freshId) ∧
    (contextReplace slot0 freshId).returned = Context.newGlobal freshId ∧
    (Context.newGlobal freshId).cancelled = false ∧
    (∀ s, s ∈ (contextReplace slot0 freshId).snapshots →
      s.newPresent = true → s.oldCancelled ≠ some false) := by
  rcases slot0 with _ | old
  · refine ⟨⟨rfl, rfl, rfl, rfl⟩, ?_, fun _ => rfl, rfl, rfl, rfl, ?_⟩
    · rintro old h
      cases h
    · intro s hs hnew
      fin_cases hs <;> simp_all
  · refine ⟨⟨rfl, rfl, rfl, rfl⟩, ?_, ?_, rfl, rfl, rfl, ?_⟩
    · rintro old2 h
      cases h
      exact ⟨rfl, rfl, rfl⟩
    · rintro h
      cases h
    · intro s hs hnew
      fin_cases hs <;> simp_all

/-- Witness for **C9** at concrete inputs: replacing a slot that holds the
un-cancelled context 3 cancels it. -/
theorem context_replace_follows_spec_witness :
    (contextReplace (some ⟨3, false⟩) 4).oldAfter =
      some (Context.cancel ⟨3, false⟩) ∧
    (Context.cancel ⟨3, false⟩).cancelled = true ∧
    (contextReplace (some ⟨3, false⟩) 4).trace =
      [CAct.lock, CAct.takeOld, CAct.cancelOld, CAct.makeNew,
        CAct.install, CAct.unlock] :=
  (context_replace_follows_spec (some ⟨3, false⟩) 4).2.1 ⟨3, false⟩ rfl

end VexRt
